import Mathlib

/-!
Verification of the cost-aggregation core of the Genshin upgrade-cost
calculator (`app.js`).  The JavaScript source is shallowly embedded: the
static tables become Lean lists, the pure calculator functions become Lean
functions over `Nat` (all costs in the source are non-negative integers),
and the JS `for`/`if` accumulation loops become `List.foldl` with the same
conditional.
-/

namespace GenshinCalc

/-! ## Level-cost data model (app.js section 3) -/

/-- One row of the inline `LEVEL_COSTS` table:
`{from_level, to_level, total_xp, total_mora, hero_wit}`. -/
structure LevelCostSegment where
  from_level : Nat
  to_level : Nat
  total_xp : Nat
  total_mora : Nat
  hero_wit : Nat
deriving Repr, DecidableEq

/-- The inline `LEVEL_COSTS` table from app.js. -/
def LEVEL_COSTS : List LevelCostSegment :=
  [ ⟨1,  20, 120175,  28000,  7⟩,
    ⟨20, 40, 578325,  112000, 28⟩,
    ⟨40, 50, 573100,  116000, 29⟩,
    ⟨50, 60, 859525,  172000, 43⟩,
    ⟨60, 70, 1196525, 240000, 60⟩,
    ⟨70, 80, 1611875, 320000, 80⟩,
    ⟨80, 90, 3423125, 688000, 172⟩ ]

/-- `LEVEL_ANCHORS = [1,20,40,50,60,70,80,90]` from app.js. -/
def LEVEL_ANCHORS : List Nat := [1, 20, 40, 50, 60, 70, 80, 90]

/-- Result record of `calcLevelCost`: `{xp, mora, hero}`. -/
structure LevelCost where
  xp : Nat
  mora : Nat
  hero : Nat
deriving Repr, DecidableEq

/-- The floor clipping in `calcLevelCost`:
`LEVEL_ANCHORS.includes(curr) ? curr : LEVEL_ANCHORS.reduce((a,b)=> (b<=curr ? b : a), 1)`. -/
def clipFloor (curr : Nat) : Nat :=
  if curr ∈ LEVEL_ANCHORS then curr
  else LEVEL_ANCHORS.foldl (fun a b => if b ≤ curr then b else a) 1

/-- The ceiling clipping in `calcLevelCost`:
`LEVEL_ANCHORS.includes(target) ? target : LEVEL_ANCHORS.reduce((a,b)=> (b>=target? Math.min(a,b):a), 90)`. -/
def clipCeil (target : Nat) : Nat :=
  if target ∈ LEVEL_ANCHORS then target
  else LEVEL_ANCHORS.foldl (fun a b => if target ≤ b then min a b else a) 90

/-- Accumulation step of the `for (const row of LEVEL_COSTS)` loop body:
`xp+=row.total_xp; mora+=row.total_mora; hero+=row.hero_wit`. -/
def addSegment (acc : LevelCost) (row : LevelCostSegment) : LevelCost :=
  { xp := acc.xp + row.total_xp,
    mora := acc.mora + row.total_mora,
    hero := acc.hero + row.hero_wit }

/-- `calcLevelCost(curr, target)` from app.js: zero on a non-increasing
range, otherwise the clipped anchors select every table row with
`row.to_level > c && row.from_level < t`, whose totals are accumulated. -/
def calcLevelCost (curr target : Nat) : LevelCost :=
  if target ≤ curr then ⟨0, 0, 0⟩
  else
    let c := clipFloor curr
    let t := clipCeil target
    LEVEL_COSTS.foldl
      (fun acc row =>
        if c < row.to_level ∧ row.from_level < t then addSegment acc row else acc)
      ⟨0, 0, 0⟩

/-! ## Spec-side restatement for claim C1 -/

/-- Spec wording: the largest anchor that is `≤ curr`, defaulting to 1 when
no anchor is `≤ curr`. -/
def specClippedFloor (curr : Nat) : Nat :=
  (LEVEL_ANCHORS.filter (fun a => decide (a ≤ curr))).foldr max 1

/-- Spec wording: the smallest anchor that is `≥ target`, defaulting to 90
when no anchor is `≥ target`. -/
def specClippedCeil (target : Nat) : Nat :=
  (LEVEL_ANCHORS.filter (fun a => decide (target ≤ a))).foldr min 90

/-- Componentwise sum of a list of level-cost segments. -/
def sumSegments (l : List LevelCostSegment) : LevelCost :=
  l.foldl addSegment ⟨0, 0, 0⟩

/-- Spec wording of the level-cost result: the componentwise sum over
exactly the segments satisfying
`to_level > clippedFloor ∧ from_level < clippedCeiling`. -/
def specLevelCost (curr target : Nat) : LevelCost :=
  sumSegments (LEVEL_COSTS.filter
    (fun row => decide (specClippedFloor curr < row.to_level ∧ row.from_level < specClippedCeil target)))

/-! ## Talent-cost model (`calcTalentCost`, app.js section 7)

The `TALENT_COSTS` table is loaded from `book_cost.json` at startup, so the
calculator is embedded as a function of that table. -/

/-- One normalized row of `TALENT_COSTS`:
`{from, to, book_low, book_mid, book_high, mora, crown}` (the JS `from`/`to`
fields are named `fromRank`/`toRank` here because `from` is a Lean keyword). -/
structure TalentStep where
  fromRank : Nat
  toRank : Nat
  book_low : Nat
  book_mid : Nat
  book_high : Nat
  mora : Nat
  crown : Nat
deriving Repr, DecidableEq

/-- The `books:{low,mid,high}` sub-record. -/
structure Books where
  low : Nat
  mid : Nat
  high : Nat
deriving Repr, DecidableEq

/-- Result record of `calcTalentCost`: `{mora, crown, books:{low,mid,high}}`. -/
structure TalentCost where
  mora : Nat
  crown : Nat
  books : Books
deriving Repr, DecidableEq

/-- The zero `calcTalentCost` result. -/
def zeroTalentCost : TalentCost := ⟨0, 0, ⟨0, 0, 0⟩⟩

/-- Loop body of `calcTalentCost`: add one step's costs into the accumulator. -/
def addStep (acc : TalentCost) (s : TalentStep) : TalentCost :=
  { mora := acc.mora + s.mora,
    crown := acc.crown + s.crown,
    books := { low := acc.books.low + s.book_low,
               mid := acc.books.mid + s.book_mid,
               high := acc.books.high + s.book_high } }

/-- `calcTalentCost(from, to)` from app.js: zero on a non-increasing range,
otherwise accumulates every step with `step.from >= from && step.to <= to`. -/
def calcTalentCost (steps : List TalentStep) (fromR toR : Nat) : TalentCost :=
  if toR ≤ fromR then zeroTalentCost
  else steps.foldl
    (fun acc s => if fromR ≤ s.fromRank ∧ s.toRank ≤ toR then addStep acc s else acc)
    zeroTalentCost

/-- Componentwise sum of a list of talent steps. -/
def sumSteps (l : List TalentStep) : TalentCost := l.foldl addStep zeroTalentCost

/-- Spec wording for claim C2: the componentwise sum over exactly the steps
fully contained in the requested range. -/
def specTalentCost (steps : List TalentStep) (fromR toR : Nat) : TalentCost :=
  sumSteps (steps.filter (fun s => decide (fromR ≤ s.fromRank ∧ s.toRank ≤ toR)))

/-! ## Series (talent book) descriptors, as built by `loadData` -/

/-- One tier descriptor (`low`/`mid`/`high` entry of `book.tiers`). -/
structure Tier where
  key : String
  label_kr : String
  image : String
deriving Repr, DecidableEq

/-- The `tiers` record of a series descriptor. -/
structure Tiers where
  low : Tier
  mid : Tier
  high : Tier
deriving Repr, DecidableEq

/-- The `talent_book` series descriptor attached to a character by `loadData`. -/
structure Book where
  key : String
  name_kr : String
  image : String
  tiers : Tiers
deriving Repr, DecidableEq

/-! ## Roster entries and the character cost aggregator -/

/-- A working-list item as pushed by the add-button handler in app.js. -/
structure RosterEntry where
  uid : String
  id : String
  name : String
  element : String
  image : String
  levelCurrent : Nat
  levelTarget : Nat
  naCurrent : Nat
  naTarget : Nat
  skillCurrent : Nat
  skillTarget : Nat
  burstCurrent : Nat
  burstTarget : Nat
  talent_book : Option Book
  region : String
deriving Repr, DecidableEq

/-- Result record of `calcCharacterCost`:
`{mora, xp, heroBooks, books:{low,mid,high}, crown}`. -/
structure CostTotals where
  mora : Nat
  xp : Nat
  heroBooks : Nat
  books : Books
  crown : Nat
deriving Repr, DecidableEq

/-- `calcCharacterCost(s)` from app.js: one level-cost call plus three
talent-cost calls (normal attack, skill, burst), summed fieldwise. -/
def calcCharacterCost (steps : List TalentStep) (s : RosterEntry) : CostTotals :=
  let lvl := calcLevelCost s.levelCurrent s.levelTarget
  let tNA := calcTalentCost steps s.naCurrent s.naTarget
  let tSK := calcTalentCost steps s.skillCurrent s.skillTarget
  let tBR := calcTalentCost steps s.burstCurrent s.burstTarget
  let books : Books :=
    { low := tNA.books.low + tSK.books.low + tBR.books.low,
      mid := tNA.books.mid + tSK.books.mid + tBR.books.mid,
      high := tNA.books.high + tSK.books.high + tBR.books.high }
  let crown := tNA.crown + tSK.crown + tBR.crown
  { mora := lvl.mora + tNA.mora + tSK.mora + tBR.mora,
    xp := lvl.xp,
    heroBooks := lvl.hero,
    books := books,
    crown := crown }

/-! ## Roster totals accumulator (`refreshTotals`, app.js section 9)

Only the accumulation state of `refreshTotals` is modelled (the global `sum`
record and the `seriesTotals` object); the DOM updates it performs afterwards
are rendering, out of the computational core.  The JS object keyed by the
string `` key@@nameKr@@region `` is modelled as an association list in
insertion order of first encounter. -/

/-- The global `sum` record of `refreshTotals`:
`{mora, xp, hero, books:{low,mid,high}, crown}`. -/
structure GlobalSum where
  mora : Nat
  xp : Nat
  hero : Nat
  books : Books
  crown : Nat
deriving Repr, DecidableEq

/-- The zero global sum `refreshTotals` starts from. -/
def zeroGlobalSum : GlobalSum := ⟨0, 0, 0, ⟨0, 0, 0⟩, 0⟩

/-- The global-sum accumulation step of `refreshTotals`:
`sum.mora += c.mora; sum.xp += c.xp; sum.hero += c.heroBooks; sum.crown += c.crown` and
`sum.books.* += c.books.*`. -/
def addCost (g : GlobalSum) (c : CostTotals) : GlobalSum :=
  { mora := g.mora + c.mora,
    xp := g.xp + c.xp,
    hero := g.hero + c.heroBooks,
    books := { low := g.books.low + c.books.low,
               mid := g.books.mid + c.books.mid,
               high := g.books.high + c.books.high },
    crown := g.crown + c.crown }

/-- The `sums` sub-record of a series bucket. -/
structure SeriesSums where
  teachings : Nat
  guide : Nat
  philosophies : Nat
deriving Repr, DecidableEq

/-- The `icons` sub-record of a series bucket. -/
structure SeriesIcons where
  teachings : String
  guide : String
  philosophies : String
deriving Repr, DecidableEq

/-- One value of the `seriesTotals` object. -/
structure SeriesTotals where
  key : String
  nameKr : String
  region : String
  sums : SeriesSums
  icons : SeriesIcons
deriving Repr, DecidableEq

/-- The bucket key built in `refreshTotals`:
`` `${it.talent_book.key}@@${it.talent_book.name_kr}@@${it.region||''}` ``. -/
def seriesKeyOf (b : Book) (region : String) : String :=
  b.key ++ "@@" ++ b.name_kr ++ "@@" ++ region

/-- The freshly created series bucket (zero sums, tier images as icons). -/
def freshSeries (b : Book) (region : String) : SeriesTotals :=
  { key := b.key,
    nameKr := b.name_kr,
    region := region,
    sums := ⟨0, 0, 0⟩,
    icons := ⟨b.tiers.low.image, b.tiers.mid.image, b.tiers.high.image⟩ }

/-- `seriesTotals[sKey].sums.teachings += c.books.low` (and `guide`,
`philosophies` from `mid`, `high`). -/
def addBooksTo (st : SeriesTotals) (c : CostTotals) : SeriesTotals :=
  { st with sums := ⟨st.sums.teachings + c.books.low,
                     st.sums.guide + c.books.mid,
                     st.sums.philosophies + c.books.high⟩ }

/-- The series-bucket update of `refreshTotals` for one entry with a
non-null `talent_book`: create the bucket at the end if absent, then add the
entry's book counts into it. -/
def bumpSeries (m : List (String × SeriesTotals)) (sKey : String)
    (fresh : SeriesTotals) (c : CostTotals) : List (String × SeriesTotals) :=
  match m with
  | [] => [(sKey, addBooksTo fresh c)]
  | (k, st) :: rest =>
    if k = sKey then (k, addBooksTo st c) :: rest
    else (k, st) :: bumpSeries rest sKey fresh c

/-- The whole per-entry accumulation step of the `refreshTotals` loop. -/
def accumEntry (steps : List TalentStep)
    (st : GlobalSum × List (String × SeriesTotals)) (it : RosterEntry) :
    GlobalSum × List (String × SeriesTotals) :=
  let c := calcCharacterCost steps it
  let sum := addCost st.1 c
  match it.talent_book with
  | some b => (sum, bumpSeries st.2 (seriesKeyOf b it.region) (freshSeries b it.region) c)
  | none => (sum, st.2)

/-- The accumulation performed by `refreshTotals` over the working list:
global sums plus the `seriesTotals` mapping. -/
def refreshTotals (steps : List TalentStep) (l : List RosterEntry) :
    GlobalSum × List (String × SeriesTotals) :=
  l.foldl (accumEntry steps) (zeroGlobalSum, [])

/-- Spec wording for claim C3: the componentwise sum of `calcCharacterCost`
over every entry of the list. -/
def globalSpecSum (steps : List TalentStep) (l : List RosterEntry) : GlobalSum :=
  l.foldl (fun g e => addCost g (calcCharacterCost steps e)) zeroGlobalSum

/-- Whether an entry contributes to the series bucket keyed `k`: it has a
non-null `talent_book` whose derived bucket key is `k`. -/
def contributesTo (e : RosterEntry) (k : String) : Prop :=
  ∃ b, e.talent_book = some b ∧ seriesKeyOf b e.region = k

instance (e : RosterEntry) (k : String) : Decidable (contributesTo e k) := by
  unfold contributesTo
  cases e.talent_book with
  | none => exact isFalse (by simp)
  | some b =>
    exact decidable_of_iff (seriesKeyOf b e.region = k) (by simp)

/-- One step of the spec-side per-series sum: an entry contributing to key
`k` adds its `books.low/mid/high` as teachings/guide/philosophies. -/
def seriesSpecStep (steps : List TalentStep) (k : String) (acc : SeriesSums)
    (e : RosterEntry) : SeriesSums :=
  if contributesTo e k then
    ⟨acc.teachings + (calcCharacterCost steps e).books.low,
     acc.guide + (calcCharacterCost steps e).books.mid,
     acc.philosophies + (calcCharacterCost steps e).books.high⟩
  else acc

/-- Spec wording for claim C7: the per-series sums are, for each bucket key,
the componentwise sum of `books.low/mid/high` (as teachings/guide/philosophies)
over exactly the entries contributing to that key. -/
def seriesSpecSums (steps : List TalentStep) (l : List RosterEntry) (k : String) :
    SeriesSums :=
  l.foldl (seriesSpecStep steps k) ⟨0, 0, 0⟩

/-- The sums bucketed at key `k`, zero when the key is absent. -/
def sumsAt (m : List (String × SeriesTotals)) (k : String) : SeriesSums :=
  ((m.lookup k).map SeriesTotals.sums).getD ⟨0, 0, 0⟩

/-- Fold of only the series-mapping component of `refreshTotals`. -/
def seriesFold (steps : List TalentStep) (l : List RosterEntry)
    (m0 : List (String × SeriesTotals)) : List (String × SeriesTotals) :=
  l.foldl
    (fun m e =>
      match e.talent_book with
      | some b => bumpSeries m (seriesKeyOf b e.region) (freshSeries b e.region)
          (calcCharacterCost steps e)
      | none => m)
    m0

/-! ## Grouping resolver (day/region aliases and `TALENT_BOOKS`, app.js section 2)

JS string helpers `trim`/`toLowerCase` are embedded at the character level so
that every definition evaluates inside the kernel. -/

/-- JS `String.prototype.toLowerCase` on our string model. -/
def jsLower (s : String) : String := ⟨s.data.map Char.toLower⟩

/-- JS `String.prototype.trim` on our string model. -/
def jsTrim (s : String) : String :=
  ⟨((s.data.dropWhile Char.isWhitespace).reverse.dropWhile Char.isWhitespace).reverse⟩

/-- The `DAY_ALIAS` table from app.js. -/
def DAY_ALIAS : List (String × String) :=
  [("mon", "mon"), ("monday", "mon"), ("m", "mon"),
   ("tue", "tue"), ("tuesday", "tue"), ("t", "tue"),
   ("wed", "wed"), ("wednesday", "wed"), ("wen", "wed"), ("w", "wed"),
   ("thu", "thu"), ("thursday", "thu"), ("th", "thu"),
   ("fri", "fri"), ("friday", "fri"), ("f", "fri"),
   ("sat", "sat"), ("saturday", "sat"), ("s", "sat"),
   ("sun", "sun"), ("sunday", "sun")]

/-- The `REGION_ALIAS` table from app.js. -/
def REGION_ALIAS : List (String × String) :=
  [("mond", "mond"), ("mondstadt", "mond"),
   ("liyue", "liyue"),
   ("inazma", "inazuma"), ("inazuma", "inazuma"),
   ("sumeru", "sumeru"),
   ("fontaine", "fontaine"),
   ("natlan", "natlan")]

/-- A `{key, name_kr}` series entry of the `TALENT_BOOKS` table. -/
structure SeriesEntry where
  key : String
  name_kr : String
deriving Repr, DecidableEq

/-- The `TALENT_BOOKS` region × day → series table from app.js. -/
def TALENT_BOOKS : List (String × List (String × SeriesEntry)) :=
  [("mond",
    [("mon", ⟨"freedom", "자유"⟩), ("tue", ⟨"resistance", "투쟁"⟩), ("wed", ⟨"ballad", "시"⟩)]),
   ("liyue",
    [("mon", ⟨"prosperity", "번영"⟩), ("tue", ⟨"diligence", "근면"⟩), ("wed", ⟨"gold", "황금"⟩)]),
   ("inazuma",
    [("mon", ⟨"transience", "부세"⟩), ("tue", ⟨"elegance", "풍아"⟩), ("wed", ⟨"light", "천광"⟩)]),
   ("sumeru",
    [("mon", ⟨"admonition", "훈계"⟩), ("tue", ⟨"ingenuity", "창의"⟩), ("wed", ⟨"praxis", "실천"⟩)]),
   ("fontaine",
    [("mon", ⟨"equity", "공정"⟩), ("tue", ⟨"judgment", "심판"⟩), ("wed", ⟨"order", "질서"⟩)]),
   ("natlan",
    [("mon", ⟨"conflict", "(예시1)"⟩), ("tue", ⟨"war", "(예시2)"⟩), ("wed", ⟨"rule", "(예시3)"⟩)])]

/-- `IMAGE_SERIES(region, seriesKey)` from app.js. -/
def IMAGE_SERIES (region seriesKey : String) : String :=
  "images/books/" ++ region ++ "_" ++ seriesKey ++ ".png"

/-- `IMAGE_SERIES_TIER(region, seriesKey, tierKey)` from app.js. -/
def IMAGE_SERIES_TIER (region seriesKey tierKey : String) : String :=
  "images/books/" ++ region ++ "_" ++ seriesKey ++ "_" ++ tierKey ++ ".png"

/-- `(c.x||'').toString().trim().toLowerCase()` then `ALIAS[raw] || raw || ''`:
a missing field becomes the empty string, the cleaned token is replaced by its
alias when the table knows it and passes through unchanged otherwise (the
empty string stays empty either way). -/
def normalizeToken (tbl : List (String × String)) (raw : Option String) : String :=
  let r := jsLower (jsTrim (raw.getD ""))
  (tbl.lookup r).getD r

/-- The series attachment of `loadData`: `book = null` unless both normalized
tokens are non-empty and `TALENT_BOOKS[region][day]` exists, in which case the
descriptor with its tier images is built. -/
def resolveBook (regionRaw dayRaw : Option String) : Option Book :=
  let region := normalizeToken REGION_ALIAS regionRaw
  let day := normalizeToken DAY_ALIAS dayRaw
  if region ≠ "" ∧ day ≠ "" then
    match (TALENT_BOOKS.lookup region).bind (fun m => m.lookup day) with
    | some se =>
      some { key := se.key,
             name_kr := se.name_kr,
             image := IMAGE_SERIES region se.key,
             tiers :=
               { low := { key := "teachings", label_kr := "가르침",
                          image := IMAGE_SERIES_TIER region se.key ("teachings") },
                 mid := { key := "guide", label_kr := "인도",
                          image := IMAGE_SERIES_TIER region se.key ("guide") },
                 high := { key := "philosophies", label_kr := "철학",
                           image := IMAGE_SERIES_TIER region se.key ("philosophies") } } }
    | none => none
  else none

/-! ## JS numeric coercion of raw cost rows (`loadData`, app.js section 5)

`TALENT_COSTS = (bookCost||[]).map(r => ({ from:+r.from, to:+r.to,
book_low:+(r.book_low||0), ... }))`.  JSON field values are modelled by
`JSVal` (absent field, `null`, finite number, string) and a JS number by
`Option Int` with `none` standing for `NaN`. -/

/-- A raw JSON field value: missing (`undefined`), `null`, a (finite integer)
number, or a string. -/
inductive JSVal where
  | undefined
  | null
  | num (n : Int)
  | str (s : String)
deriving Repr, DecidableEq

/-- All-digit character list to its numeric value (empty list rejected). -/
def parseNatDigits (l : List Char) : Option Nat :=
  if l ≠ [] ∧ l.all Char.isDigit then
    some (l.foldl (fun a c => a * 10 + (c.toNat - 48)) 0)
  else none

/-- Optionally signed integer literal. -/
def parseIntChars : List Char → Option Int
  | '-' :: rest => (parseNatDigits rest).map (fun n => -(n : Int))
  | '+' :: rest => (parseNatDigits rest).map (fun n => (n : Int))
  | l => (parseNatDigits l).map (fun n => (n : Int))

/-- JS unary `+` on our value model: `undefined` is NaN, `null` is 0, a number
passes through, and a string parses as a trimmed integer literal (the empty
string is 0, a non-numeric string is NaN).  Fractional, hexadecimal and
exponent literals are outside the model; every value the claims exercise
coerces identically in JS. -/
def jsToNumber : JSVal → Option Int
  | .undefined => none
  | .null => some 0
  | .num n => some n
  | .str s =>
    let t := jsTrim s
    if t.data = [] then some 0 else parseIntChars t.data

/-- JS truthiness of a `JSVal` (`undefined`, `null`, `0` and `""` are falsy). -/
def jsTruthy : JSVal → Bool
  | .undefined => false
  | .null => false
  | .num n => n ≠ 0
  | .str s => s ≠ ""

/-- JS `a || b` on our value model. -/
def jsOr (a b : JSVal) : JSVal := if jsTruthy a then a else b

/-- A raw `book_cost.json` row before coercion. -/
structure RawCostRow where
  rfrom : JSVal
  rto : JSVal
  book_low : JSVal
  book_mid : JSVal
  book_high : JSVal
  mora : JSVal
  crown : JSVal
deriving Repr, DecidableEq

/-- A `TALENT_COSTS` row as actually produced by the coercion, with `none`
standing for NaN in any field. -/
structure JSTalentStep where
  fromN : Option Int
  toN : Option Int
  book_lowN : Option Int
  book_midN : Option Int
  book_highN : Option Int
  moraN : Option Int
  crownN : Option Int
deriving Repr, DecidableEq

/-- The row normalization from `loadData`: `from:+r.from, to:+r.to,
book_low:+(r.book_low||0), book_mid:+(r.book_mid||0),
book_high:+(r.book_high||0), mora:+(r.mora||0), crown:+(r.crown||0)`. -/
def normalizeRow (r : RawCostRow) : JSTalentStep :=
  { fromN := jsToNumber r.rfrom,
    toN := jsToNumber r.rto,
    book_lowN := jsToNumber (jsOr r.book_low (.num 0)),
    book_midN := jsToNumber (jsOr r.book_mid (.num 0)),
    book_highN := jsToNumber (jsOr r.book_high (.num 0)),
    moraN := jsToNumber (jsOr r.mora (.num 0)),
    crownN := jsToNumber (jsOr r.crown (.num 0)) }

/-- Componentwise sum of two level-cost records (for the anchor-additivity
claim). -/
def addLevelCost (a b : LevelCost) : LevelCost :=
  ⟨a.xp + b.xp, a.mora + b.mora, a.hero + b.hero⟩

/-- A concrete Mondstadt series descriptor (as `loadData` would attach it),
used to instantiate the accumulator theorems. -/
def sampleBook : Book :=
  { key := "freedom",
    name_kr := "자유",
    image := IMAGE_SERIES ("mond") ("freedom"),
    tiers :=
      { low := { key := "teachings", label_kr := "가르침",
                 image := IMAGE_SERIES_TIER ("mond") ("freedom") ("teachings") },
        mid := { key := "guide", label_kr := "인도",
                 image := IMAGE_SERIES_TIER ("mond") ("freedom") ("guide") },
        high := { key := "philosophies", label_kr := "철학",
                  image := IMAGE_SERIES_TIER ("mond") ("freedom") ("philosophies") } } }

/-- A concrete working-list entry carrying `sampleBook`, with the default
selector values an added character starts with. -/
def sampleEntry : RosterEntry :=
  { uid := "amber-0",
    id := "amber",
    name := "amber",
    element := "pyro",
    image := "images/amber.png",
    levelCurrent := 1,
    levelTarget := 90,
    naCurrent := 1,
    naTarget := 6,
    skillCurrent := 1,
    skillTarget := 6,
    burstCurrent := 1,
    burstTarget := 6,
    talent_book := some sampleBook,
    region := "mond" }

/-! ## Generic lemma: a conditional fold is a fold over the filtered list -/

theorem foldl_cond_eq_filter {α β : Type} (f : β → α → β) (p : α → Prop)
    [DecidablePred p] :
    ∀ (l : List α) (b : β),
      l.foldl (fun acc x => if p x then f acc x else acc) b
        = (l.filter (fun x => decide (p x))).foldl f b := by
  intro l
  induction l with
  | nil => intro b; rfl
  | cons x xs ih =>
    intro b
    by_cases h : p x
    · simp [List.filter_cons, h, ih]
    · simp [List.filter_cons, h, ih]

/-! ## Anchor clipping agrees with the spec wording -/

theorem clipFloor_eq_spec (curr : Nat) : clipFloor curr = specClippedFloor curr := by
  rcases Nat.lt_or_ge curr 91 with h | h
  · interval_cases curr <;> decide
  · have hmem : curr ∉ LEVEL_ANCHORS := by
      simp only [LEVEL_ANCHORS, List.mem_cons, List.not_mem_nil, or_false]
      omega
    have e1 : (1 : Nat) ≤ curr := by omega
    have e20 : (20 : Nat) ≤ curr := by omega
    have e40 : (40 : Nat) ≤ curr := by omega
    have e50 : (50 : Nat) ≤ curr := by omega
    have e60 : (60 : Nat) ≤ curr := by omega
    have e70 : (70 : Nat) ≤ curr := by omega
    have e80 : (80 : Nat) ≤ curr := by omega
    have e90 : (90 : Nat) ≤ curr := by omega
    simp [clipFloor, specClippedFloor, hmem, LEVEL_ANCHORS, e1, e20, e40, e50, e60, e70, e80, e90]
    rintro (rfl | rfl | rfl | rfl | rfl | rfl | rfl | rfl) <;> omega

theorem clipCeil_eq_spec (target : Nat) : clipCeil target = specClippedCeil target := by
  rcases Nat.lt_or_ge target 91 with h | h
  · interval_cases target <;> decide
  · have hmem : target ∉ LEVEL_ANCHORS := by
      simp only [LEVEL_ANCHORS, List.mem_cons, List.not_mem_nil, or_false]
      omega
    have e1 : ¬ target ≤ 1 := by omega
    have e20 : ¬ target ≤ 20 := by omega
    have e40 : ¬ target ≤ 40 := by omega
    have e50 : ¬ target ≤ 50 := by omega
    have e60 : ¬ target ≤ 60 := by omega
    have e70 : ¬ target ≤ 70 := by omega
    have e80 : ¬ target ≤ 80 := by omega
    have e90 : ¬ target ≤ 90 := by omega
    simp [clipCeil, specClippedCeil, hmem, LEVEL_ANCHORS, e1, e20, e40, e50, e60, e70, e80, e90]
    rintro (rfl | rfl | rfl | rfl | rfl | rfl | rfl | rfl) <;> omega

/-! ## Structure of the refreshTotals fold -/

theorem refreshTotals_fst_aux (steps : List TalentStep) :
    ∀ (l : List RosterEntry) (st : GlobalSum × List (String × SeriesTotals)),
      (l.foldl (accumEntry steps) st).1
        = l.foldl (fun g e => addCost g (calcCharacterCost steps e)) st.1 := by
  intro l
  induction l with
  | nil => intro st; rfl
  | cons e rest ih =>
    intro st
    rw [List.foldl_cons, List.foldl_cons, ih]
    cases h : e.talent_book <;> simp [accumEntry, h]

theorem refreshTotals_snd_aux (steps : List TalentStep) :
    ∀ (l : List RosterEntry) (st : GlobalSum × List (String × SeriesTotals)),
      (l.foldl (accumEntry steps) st).2 = seriesFold steps l st.2 := by
  intro l
  induction l with
  | nil => intro st; rfl
  | cons e rest ih =>
    intro st
    rw [List.foldl_cons]
    unfold seriesFold
    rw [List.foldl_cons, ih]
    cases h : e.talent_book <;> simp [accumEntry, seriesFold, h]

theorem lookup_bumpSeries (sKey : String) (fresh : SeriesTotals) (c : CostTotals) :
    ∀ (m : List (String × SeriesTotals)) (k : String),
      (bumpSeries m sKey fresh c).lookup k
        = if k = sKey then some (addBooksTo ((m.lookup sKey).getD fresh) c)
          else m.lookup k := by
  intro m
  induction m with
  | nil =>
    intro k
    by_cases h : k = sKey
    · subst h; simp [bumpSeries, List.lookup]
    · have hb : (k == sKey) = false := beq_eq_false_iff_ne.mpr h
      simp [bumpSeries, List.lookup, hb, h]
  | cons p rest ih =>
    intro k
    obtain ⟨k0, st0⟩ := p
    by_cases h0 : k0 = sKey
    · subst h0
      by_cases h : k = k0
      · subst h; simp [bumpSeries, List.lookup]
      · have hb : (k == k0) = false := beq_eq_false_iff_ne.mpr h
        simp [bumpSeries, List.lookup, hb, h]
    · have h0b : (sKey == k0) = false := beq_eq_false_iff_ne.mpr (Ne.symm h0)
      by_cases h : k = k0
      · subst h
        simp [bumpSeries, List.lookup, h0, h0b, Ne.symm h0, ih]
      · have hb : (k == k0) = false := beq_eq_false_iff_ne.mpr h
        simp [bumpSeries, List.lookup, h0, h0b, hb, h, ih]

theorem sumsAt_bump (sKey : String) (b : Book) (region : String) (c : CostTotals)
    (m : List (String × SeriesTotals)) (k : String)
    (hb : sKey = seriesKeyOf b region) :
    sumsAt (bumpSeries m sKey (freshSeries b region) c) k
      = if k = sKey then
          ⟨(sumsAt m k).teachings + c.books.low,
           (sumsAt m k).guide + c.books.mid,
           (sumsAt m k).philosophies + c.books.high⟩
        else sumsAt m k := by
  unfold sumsAt
  rw [lookup_bumpSeries]
  by_cases h : k = sKey
  · subst h
    cases hm : m.lookup k <;>
      simp [hm, addBooksTo, freshSeries, SeriesTotals.sums]
  · simp [h]

theorem sumsAt_seriesFold (steps : List TalentStep) (k : String) :
    ∀ (l : List RosterEntry) (m0 : List (String × SeriesTotals)),
      sumsAt (seriesFold steps l m0) k
        = l.foldl (seriesSpecStep steps k) (sumsAt m0 k) := by
  intro l
  induction l with
  | nil => intro m0; rfl
  | cons e rest ih =>
    intro m0
    unfold seriesFold
    rw [List.foldl_cons, List.foldl_cons]
    show sumsAt (seriesFold steps rest _) k = _
    rw [ih]
    congr 1
    cases h : e.talent_book with
    | none =>
      have hc : ¬ contributesTo e k := by simp [contributesTo, h]
      simp [seriesSpecStep, hc, h]
    | some b =>
      rw [sumsAt_bump (seriesKeyOf b e.region) b e.region _ m0 k rfl]
      by_cases hk : k = seriesKeyOf b e.region
      · subst hk
        have hc : contributesTo e (seriesKeyOf b e.region) := ⟨b, h, rfl⟩
        simp [seriesSpecStep, hc]
      · have hc : ¬ contributesTo e k := by
          rintro ⟨b2, hb2, hk2⟩
          rw [h] at hb2
          injection hb2 with hb3
          subst hb3
          exact hk hk2.symm
        simp [seriesSpecStep, hc, hk]

theorem lookup_seriesFold_ne_none (steps : List TalentStep) (k : String) :
    ∀ (l : List RosterEntry) (m0 : List (String × SeriesTotals)),
      ((seriesFold steps l m0).lookup k ≠ none)
        ↔ (m0.lookup k ≠ none ∨ ∃ e ∈ l, contributesTo e k) := by
  intro l
  induction l with
  | nil => intro m0; simp [seriesFold]
  | cons e rest ih =>
    intro m0
    unfold seriesFold
    rw [List.foldl_cons]
    show ((seriesFold steps rest _).lookup k ≠ none) ↔ _
    rw [ih]
    cases h : e.talent_book with
    | none =>
      have hc : ¬ contributesTo e k := by simp [contributesTo, h]
      simp [h, hc]
    | some b =>
      rw [lookup_bumpSeries]
      by_cases hk : k = seriesKeyOf b e.region
      · subst hk
        have hc : contributesTo e (seriesKeyOf b e.region) := ⟨b, h, rfl⟩
        simp [hc]
      · have hc : ¬ contributesTo e k := by
          rintro ⟨b2, hb2, hk2⟩
          rw [h] at hb2
          injection hb2 with hb3
          subst hb3
          exact hk hk2.symm
        simp [hk, hc]

/-! ## Claim C1: calcLevelCost matches its spec-side description -/

/-- C1: for every `curr < target`, `calcLevelCost` equals the componentwise
sum of `total_xp`, `total_mora`, `hero_wit` over exactly the segments with
`to_level > clippedFloor` and `from_level < clippedCeiling`, where the
clipped anchors are the largest anchor `≤ curr` (default 1) and the smallest
anchor `≥ target` (default 90). -/
theorem calcLevelCost_spec_c1 (curr target : Nat) (h : curr < target) :
    calcLevelCost curr target = specLevelCost curr target := by
  unfold calcLevelCost specLevelCost sumSegments
  rw [if_neg (by omega)]
  rw [clipFloor_eq_spec, clipCeil_eq_spec]
  exact foldl_cond_eq_filter addSegment
    (fun row => specClippedFloor curr < row.to_level ∧ row.from_level < specClippedCeil target)
    LEVEL_COSTS ⟨0, 0, 0⟩

/-- Witness for C1 at the concrete range 2 → 77. -/
theorem calcLevelCost_spec_c1_witness :
    2 < 77 ∧ calcLevelCost 2 77 = specLevelCost 2 77 :=
  ⟨by decide, calcLevelCost_spec_c1 2 77 (by decide)⟩

/-! ## Claim C2: calcTalentCost sums exactly the fully contained steps -/

/-- C2: for every table and every `from < to`, `calcTalentCost` equals the
componentwise sum over exactly the steps with `step.from ≥ from` and
`step.to ≤ to`; partially overlapping steps contribute nothing. -/
theorem calcTalentCost_spec_c2 (steps : List TalentStep) (fromR toR : Nat)
    (h : fromR < toR) :
    calcTalentCost steps fromR toR = specTalentCost steps fromR toR := by
  unfold calcTalentCost specTalentCost sumSteps
  rw [if_neg (by omega)]
  exact foldl_cond_eq_filter addStep
    (fun s => fromR ≤ s.fromRank ∧ s.toRank ≤ toR) steps zeroTalentCost

/-- Witness for C2: a single step covering 1 → 3 against the requested
range 2 → 5 (the straddling step is filtered out, so the cost is zero). -/
theorem calcTalentCost_spec_c2_witness :
    2 < 5
    ∧ calcTalentCost [⟨1, 3, 3, 0, 0, 12500, 0⟩] 2 5
        = specTalentCost [⟨1, 3, 3, 0, 0, 12500, 0⟩] 2 5
    ∧ specTalentCost [⟨1, 3, 3, 0, 0, 12500, 0⟩] 2 5 = zeroTalentCost :=
  ⟨by decide, calcTalentCost_spec_c2 [⟨1, 3, 3, 0, 0, 12500, 0⟩] 2 5 (by decide), by decide⟩

/-! ## Claim C4: the character cost aggregator is fieldwise additive -/

/-- C4: `calcCharacterCost` computes level cost once and talent cost three
times, and each output field is the stated sum of the component costs. -/
theorem calcCharacterCost_components_c4 (steps : List TalentStep) (e : RosterEntry) :
    (calcCharacterCost steps e).mora
        = (calcLevelCost e.levelCurrent e.levelTarget).mora
          + (calcTalentCost steps e.naCurrent e.naTarget).mora
          + (calcTalentCost steps e.skillCurrent e.skillTarget).mora
          + (calcTalentCost steps e.burstCurrent e.burstTarget).mora
    ∧ (calcCharacterCost steps e).xp = (calcLevelCost e.levelCurrent e.levelTarget).xp
    ∧ (calcCharacterCost steps e).heroBooks = (calcLevelCost e.levelCurrent e.levelTarget).hero
    ∧ (calcCharacterCost steps e).books.low
        = (calcTalentCost steps e.naCurrent e.naTarget).books.low
          + (calcTalentCost steps e.skillCurrent e.skillTarget).books.low
          + (calcTalentCost steps e.burstCurrent e.burstTarget).books.low
    ∧ (calcCharacterCost steps e).books.mid
        = (calcTalentCost steps e.naCurrent e.naTarget).books.mid
          + (calcTalentCost steps e.skillCurrent e.skillTarget).books.mid
          + (calcTalentCost steps e.burstCurrent e.burstTarget).books.mid
    ∧ (calcCharacterCost steps e).books.high
        = (calcTalentCost steps e.naCurrent e.naTarget).books.high
          + (calcTalentCost steps e.skillCurrent e.skillTarget).books.high
          + (calcTalentCost steps e.burstCurrent e.burstTarget).books.high
    ∧ (calcCharacterCost steps e).crown
        = (calcTalentCost steps e.naCurrent e.naTarget).crown
          + (calcTalentCost steps e.skillCurrent e.skillTarget).crown
          + (calcTalentCost steps e.burstCurrent e.burstTarget).crown :=
  ⟨rfl, rfl, rfl, rfl, rfl, rfl, rfl⟩

/-! ## Claim C5: non-increasing ranges cost zero -/

/-- C5: for every `target ≤ curr` the level cost is all zeros, and for every
`to ≤ from` the talent cost is all zeros; a non-increasing range is a defined
zero-cost result, not an error. -/
theorem nonincreasing_range_zero_c5 (curr target fromR toR : Nat)
    (steps : List TalentStep) :
    (target ≤ curr → calcLevelCost curr target = ⟨0, 0, 0⟩)
    ∧ (toR ≤ fromR → calcTalentCost steps fromR toR = zeroTalentCost) := by
  constructor
  · intro h; simp [calcLevelCost, h]
  · intro h; simp [calcTalentCost, h]

/-- Witness for C5 at the concrete ranges 9 → 3 and 7 → 7. -/
theorem nonincreasing_range_zero_c5_witness :
    calcLevelCost 9 3 = ⟨0, 0, 0⟩ ∧ calcTalentCost [] 7 7 = zeroTalentCost :=
  ⟨(nonincreasing_range_zero_c5 9 3 7 7 []).1 (by decide),
   (nonincreasing_range_zero_c5 9 3 7 7 []).2 (by decide)⟩

/-! ## Claim C6: sub-anchor ranges charge the enclosing segment in full -/

/-- C6: `calcLevelCost 25 35` equals exactly the 20 → 40 segment's totals
(xp 578325, mora 112000, hero wit 28), that segment being a row of the
table, and `calcLevelCost 1 90` is the componentwise sum of the whole table. -/
theorem levelCost_examples_c6 :
    calcLevelCost 25 35 = ⟨578325, 112000, 28⟩
    ∧ (⟨20, 40, 578325, 112000, 28⟩ : LevelCostSegment) ∈ LEVEL_COSTS
    ∧ calcLevelCost 1 90 = sumSegments LEVEL_COSTS := by
  refine ⟨by decide, by decide, by decide⟩

/-! ## Claim C10: additivity of calcLevelCost at anchor boundaries -/

/-- C10: for any three anchors `a < b < c`, the level cost of `a → c` is the
componentwise sum of the costs of `a → b` and `b → c` (no table segment
straddles an intermediate anchor). -/
theorem calcLevelCost_anchor_additive_c10 :
    ∀ a ∈ LEVEL_ANCHORS, ∀ b ∈ LEVEL_ANCHORS, ∀ c ∈ LEVEL_ANCHORS,
      a < b → b < c →
        calcLevelCost a c = addLevelCost (calcLevelCost a b) (calcLevelCost b c) := by
  decide

/-- Witness for C10 at the anchors 1, 20, 40. -/
theorem calcLevelCost_anchor_additive_c10_witness :
    calcLevelCost 1 40 = addLevelCost (calcLevelCost 1 20) (calcLevelCost 20 40) :=
  calcLevelCost_anchor_additive_c10 1 (by decide) 20 (by decide) 40 (by decide)
    (by decide) (by decide)

/-! ## Claim C3: refreshTotals global sums -/

/-- C3: the global sums of `refreshTotals` over any working list (no
uniqueness is assumed, so duplicate entries are covered by the
quantification) equal the componentwise sum of `calcCharacterCost` over
every entry, and on the empty list the sums are all zero and the series
mapping is empty. -/
theorem refreshTotals_global_sums_c3 (steps : List TalentStep) (l : List RosterEntry) :
    (refreshTotals steps l).1 = globalSpecSum steps l
    ∧ refreshTotals steps [] = (zeroGlobalSum, []) :=
  ⟨refreshTotals_fst_aux steps l (zeroGlobalSum, []), rfl⟩

/-! ## Claim C7: the per-series mapping of refreshTotals -/

/-- C7: a key is present in the series mapping exactly when some entry of
the list has a non-null `talent_book` resolving to that key; the sums stored
there are the componentwise totals of `books.low/mid/high` (bucketed as
teachings/guide/philosophies) over exactly those entries; and entries with a
null `talent_book` still contribute to the global sums, which cover every
entry of the list. -/
theorem refreshTotals_series_mapping_c7 (steps : List TalentStep)
    (l : List RosterEntry) (k : String) :
    ((refreshTotals steps l).2.lookup k = none ↔ ¬ ∃ e ∈ l, contributesTo e k)
    ∧ (∀ st, (refreshTotals steps l).2.lookup k = some st →
        st.sums = seriesSpecSums steps l k)
    ∧ (refreshTotals steps l).1 = globalSpecSum steps l := by
  have hsnd : (refreshTotals steps l).2 = seriesFold steps l [] :=
    refreshTotals_snd_aux steps l (zeroGlobalSum, [])
  have h2 : ((seriesFold steps l []).lookup k ≠ none) ↔ ∃ e ∈ l, contributesTo e k := by
    simpa using lookup_seriesFold_ne_none steps k l []
  refine ⟨?_, ?_, refreshTotals_fst_aux steps l (zeroGlobalSum, [])⟩
  · rw [hsnd]
    constructor
    · intro h0 hex
      exact (h2.mpr hex) (by simp [h0])
    · intro hnex
      cases hl : (seriesFold steps l []).lookup k with
      | none => rfl
      | some st => exact absurd (h2.mp (by simp [hl])) hnex
  · intro st hst
    rw [hsnd] at hst
    have h3 := sumsAt_seriesFold steps k l []
    rw [sumsAt, hst] at h3
    simpa [seriesSpecSums, sumsAt] using h3

/-- Witness for C7: one entry carrying the Mondstadt freedom series, whose
bucket holds exactly that entry's book sums. -/
theorem refreshTotals_series_mapping_c7_witness :
    (addBooksTo (freshSeries sampleBook ("mond")) (calcCharacterCost [] sampleEntry)).sums
      = seriesSpecSums [] [sampleEntry] (seriesKeyOf sampleBook ("mond")) :=
  (refreshTotals_series_mapping_c7 [] [sampleEntry] (seriesKeyOf sampleBook ("mond"))).2.1
    (addBooksTo (freshSeries sampleBook ("mond")) (calcCharacterCost [] sampleEntry))
    (by decide)

/-! ## Claim C8: the grouping resolver -/

/-- C8: the resolver sends `("mond","monday")` to the Mondstadt series with
key `freedom` and display name `자유`, sends `("mond","thursday")` to no
series, and sends any region whose normalized token is not a key of
`TALENT_BOOKS` to no series (and, being a total function, never throws). -/
theorem groupingResolver_c8 :
    ((resolveBook (some ("mond")) (some ("monday"))).map (fun b => (b.key, b.name_kr))
        = some (("freedom", "자유")))
    ∧ resolveBook (some ("mond")) (some ("thursday")) = none
    ∧ (∀ (regionRaw : String) (dayRaw : Option String),
        TALENT_BOOKS.lookup (normalizeToken REGION_ALIAS (some regionRaw)) = none →
          resolveBook (some regionRaw) dayRaw = none) := by
  refine ⟨by decide, by decide, ?_⟩
  intro regionRaw dayRaw h
  simp only [resolveBook, h]
  simp

/-- Witness for C8: the unrecognized region string `atlantis` resolves to no
series. -/
theorem groupingResolver_c8_witness :
    resolveBook (some ("atlantis")) (some ("monday")) = none :=
  groupingResolver_c8.2.2 ("atlantis") (some ("monday")) (by decide)

/-! ## Claim C9: numeric coercion of raw cost rows

The claim is refuted by the code: `from`/`to` are coerced with a bare unary
plus (`+r.from`), so a missing field yields NaN, not 0, and for the
`||0`-guarded fields a non-empty non-numeric string is truthy and also
coerces to NaN. -/

/-- Counterexample to C9 as stated: a row with a missing `from` and the
non-numeric `book_low` string `abc` normalizes those fields to NaN (`none`),
not to 0. -/
theorem normalizeRow_not_zero_c9_counterexample :
    (normalizeRow ⟨JSVal.undefined, JSVal.num 2, JSVal.str ("abc"), JSVal.num 3,
        JSVal.num 3, JSVal.num 12500, JSVal.num 0⟩).fromN = none
    ∧ (normalizeRow ⟨JSVal.undefined, JSVal.num 2, JSVal.str ("abc"), JSVal.num 3,
        JSVal.num 3, JSVal.num 12500, JSVal.num 0⟩).book_lowN = none
    ∧ ¬ ((normalizeRow ⟨JSVal.undefined, JSVal.num 2, JSVal.str ("abc"), JSVal.num 3,
        JSVal.num 3, JSVal.num 12500, JSVal.num 0⟩).fromN = some 0) := by
  refine ⟨by decide, by decide, by decide⟩

/-- C9 (amended): the normalization is total (never throws); for
`book_low`/`book_mid`/`book_high`/`mora`/`crown` a missing (`undefined` or
`null`) field is coerced to 0 and a numeric field passes through, while a
string field coerces by JS string-to-number rules (so a non-numeric string
such as `abc` yields NaN); `from` and `to` have no missing-value fallback:
a numeric field passes through but a missing field yields NaN. -/
theorem normalizeRow_coercion_c9 (r : RawCostRow) :
    ((r.book_low = JSVal.undefined ∨ r.book_low = JSVal.null) →
        (normalizeRow r).book_lowN = some 0)
    ∧ ((r.book_mid = JSVal.undefined ∨ r.book_mid = JSVal.null) →
        (normalizeRow r).book_midN = some 0)
    ∧ ((r.book_high = JSVal.undefined ∨ r.book_high = JSVal.null) →
        (normalizeRow r).book_highN = some 0)
    ∧ ((r.mora = JSVal.undefined ∨ r.mora = JSVal.null) →
        (normalizeRow r).moraN = some 0)
    ∧ ((r.crown = JSVal.undefined ∨ r.crown = JSVal.null) →
        (normalizeRow r).crownN = some 0)
    ∧ (∀ n : Int, r.book_low = JSVal.num n → (normalizeRow r).book_lowN = some n)
    ∧ (∀ s : String, r.book_low = JSVal.str s →
        (normalizeRow r).book_lowN = jsToNumber (JSVal.str s))
    ∧ (r.rfrom = JSVal.undefined → (normalizeRow r).fromN = none)
    ∧ (r.rto = JSVal.undefined → (normalizeRow r).toN = none)
    ∧ (∀ n : Int, r.rfrom = JSVal.num n → (normalizeRow r).fromN = some n)
    ∧ jsToNumber (JSVal.str ("abc")) = none := by
  refine ⟨?_, ?_, ?_, ?_, ?_, ?_, ?_, ?_, ?_, ?_, by decide⟩
  · rintro (h | h) <;> simp [normalizeRow, jsOr, jsTruthy, h, jsToNumber]
  · rintro (h | h) <;> simp [normalizeRow, jsOr, jsTruthy, h, jsToNumber]
  · rintro (h | h) <;> simp [normalizeRow, jsOr, jsTruthy, h, jsToNumber]
  · rintro (h | h) <;> simp [normalizeRow, jsOr, jsTruthy, h, jsToNumber]
  · rintro (h | h) <;> simp [normalizeRow, jsOr, jsTruthy, h, jsToNumber]
  · intro n h
    by_cases hn : n = 0 <;> simp [normalizeRow, jsOr, jsTruthy, h, hn, jsToNumber]
  · intro s h
    by_cases hs : s = ""
    · subst hs
      simp [normalizeRow, jsOr, jsTruthy, h]
      decide
    · simp [normalizeRow, jsOr, jsTruthy, h, hs]
  · intro h; simp [normalizeRow, h, jsToNumber]
  · intro h; simp [normalizeRow, h, jsToNumber]
  · intro n h; simp [normalizeRow, h, jsToNumber]

/-- Witness for the amended C9 at a concrete row: a `null` `book_low` is
coerced to 0 while the missing `from` is NaN. -/
theorem normalizeRow_coercion_c9_witness :
    (normalizeRow ⟨JSVal.undefined, JSVal.num 2, JSVal.null, JSVal.undefined,
        JSVal.null, JSVal.undefined, JSVal.null⟩).book_lowN = some 0
    ∧ (normalizeRow ⟨JSVal.undefined, JSVal.num 2, JSVal.null, JSVal.undefined,
        JSVal.null, JSVal.undefined, JSVal.null⟩).fromN = none :=
  ⟨(normalizeRow_coercion_c9 _).1 (Or.inr rfl),
   (normalizeRow_coercion_c9 _).2.2.2.2.2.2.2.1 rfl⟩

end GenshinCalc
